import Mathlib

/-!
Shallow embedding of the mcp-codemode repository: the schema-to-TypeScript
generator (src/schema-to-types.js), the MCP-usage validator and execution
pipeline (src/validator.js, index.js), the isolated-vm sandbox
(isolated-sandbox.js), the worker-thread sandbox (src/sandbox.js) and the
error mapper (error-mapper.js), together with theorems settling the
specification's claims about them.
-/

namespace MCM

/-- Character class `[a-zA-Z0-9_]` (JavaScript regex `\w`), as used by
`sanitizeName`'s `[^a-zA-Z0-9_]` and by the `mcp\.(\w+)\(` scanner. -/
def isWordChar (c : Char) : Bool :=
  ('a' ≤ c && c ≤ 'z') || ('A' ≤ c && c ≤ 'Z') || ('0' ≤ c && c ≤ '9') || c == '_'

/-- JavaScript `Array.prototype.join(sep)`. -/
def jsJoin (sep : String) : List String → String
  | [] => ""
  | [a] => a
  | a :: b :: rest => a ++ sep ++ jsJoin sep (b :: rest)

/-- `pat` occurs at the start of `s` (on character lists). -/
def hasPrefixC : List Char → List Char → Bool
  | _, [] => true
  | [], _ :: _ => false
  | c :: cs, p :: ps => c == p && hasPrefixC cs ps

/-- JavaScript `String.prototype.includes`: `pat` occurs somewhere in `s`. -/
def hasSubstrC : List Char → List Char → Bool
  | [], pat => pat.isEmpty
  | c :: cs, pat => hasPrefixC (c :: cs) pat || hasSubstrC cs pat

/-- JavaScript `s.includes(pat)` on Lean strings. -/
def strIncludes (s pat : String) : Bool := hasSubstrC s.data pat.data

/-- `sanitizeName` from src/schema-to-types.js:
`name.replace(/[^a-zA-Z0-9_]/g, '_')` — every character outside
letters, digits and underscore becomes an underscore, per character. -/
def sanitizeName (name : String) : String :=
  String.mk (name.data.map (fun c => if isWordChar c then c else '_'))

/-- One segment of `toPascalCase`:
`part.charAt(0).toUpperCase() + part.slice(1).toLowerCase()`. -/
def pascalSegment (part : String) : String :=
  match part.data with
  | [] => ""
  | c :: rest => String.mk (c.toUpper :: rest.map Char.toLower)

/-- JavaScript `String.prototype.split` on a single-character class:
splitting an empty string gives `[""]`, and separators at the ends or
adjacent separators give empty segments. -/
def splitOnPred (p : Char → Bool) : List Char → List (List Char)
  | [] => [[]]
  | c :: cs =>
    if p c then [] :: splitOnPred p cs
    else
      match splitOnPred p cs with
      | [] => [[c]]
      | w :: ws => (c :: w) :: ws

/-- `toPascalCase` from src/schema-to-types.js: split on `-`/`_`,
capitalize each segment, concatenate. -/
def toPascalCase (str : String) : String :=
  String.join ((splitOnPred (fun c => c == '-' || c == '_') str.data).map
    (fun seg => pascalSegment (String.mk seg)))

example : sanitizeName "search-music!" = "search_music_" := by decide
example : toPascalCase "search-music" = "SearchMusic" := by decide

/-- C6: `sanitizeName` keeps the length, maps every character outside
`[a-zA-Z0-9_]` to `_` and leaves every other character unchanged at its
position; in particular `"search-music!"` yields `"search_music_"`. -/
theorem C6_sanitizeName_pointwise (s : String) (i : Nat) (h : i < s.data.length) :
    (sanitizeName s).data.length = s.data.length ∧
    (sanitizeName s).data.get ⟨i, by simpa [sanitizeName] using h⟩ =
      (if isWordChar (s.data.get ⟨i, h⟩) then s.data.get ⟨i, h⟩ else '_') ∧
    sanitizeName "search-music!" = "search_music_" := by
  refine ⟨by simp [sanitizeName], ?_, by decide⟩
  simp [sanitizeName]

/-- Witness for C6 at the concrete input `"search-music!"`, position 0. -/
theorem C6_sanitizeName_pointwise_witness :
    (sanitizeName "search-music!").data.length = "search-music!".data.length ∧
    (sanitizeName "search-music!").data.get ⟨0, by decide⟩ =
      (if isWordChar ("search-music!".data.get ⟨0, by decide⟩)
        then "search-music!".data.get ⟨0, by decide⟩ else '_') ∧
    sanitizeName "search-music!" = "search_music_" :=
  C6_sanitizeName_pointwise "search-music!" 0 (by decide)

/-! ## Schema → TypeScript translation (src/schema-to-types.js) -/

/-- Tri-state JSON value used for `additionalProperties`: absent
(undefined), a boolean, or a schema object. -/
inductive APVal (α : Type) where
  | absent : APVal α
  | abool (b : Bool) : APVal α
  | aval (a : α) : APVal α

/-- A JSON Schema tree as consumed by src/schema-to-types.js. Absent JSON
keys are `none`; `anyOf`/`oneOf`/`allOf` keep present-but-empty arrays
distinct from absent ones (both matter to the JavaScript truthiness
checks). Enum values are modeled as the strings the generator
interpolates. -/
inductive Schema where
  | mk (anyOf oneOf allOf : Option (List Schema))
       (ty : Option String)
       (enumVals : Option (List String))
       (items : Option Schema)
       (properties : Option (List (String × Schema)))
       (required : Option (List String))
       (addProps : APVal Schema)
       (descr : Option String) : Schema

/-- The `description` field of a schema node. -/
def Schema.descr : Schema → Option String
  | .mk _ _ _ _ _ _ _ _ _ d => d

/-- `' '.repeat(indent)`. -/
def spacesOf (n : Nat) : String := String.mk (List.replicate n ' ')

/-- JavaScript `s.replace(/<c0>/g, repl)` for a single-character pattern. -/
def replaceCharStr (s : String) (c0 : Char) (repl : String) : String :=
  String.mk (s.data.foldr (fun c acc => if c == c0 then repl.data ++ acc else c :: acc) [])

/-- `jsonSchemaToTypeScript` from src/schema-to-types.js, on an optional
schema (`none` models the JavaScript falsy `schema` argument). Total by
construction: every unrecognized or missing shape falls through to
`"unknown"`. -/
def jsonSchemaToTypeScript : Option Schema → Nat → String
  | none, _ => "unknown"
  | some (.mk anyOf oneOf allOf ty enumVals items properties required addProps _descr), indent =>
    let spaces := spacesOf indent
    match anyOf with
    | some l => jsJoin " | " (l.attach.map (fun ⟨a, _⟩ => jsonSchemaToTypeScript (some a) indent))
    | none =>
    match oneOf with
    | some l => jsJoin " | " (l.attach.map (fun ⟨a, _⟩ => jsonSchemaToTypeScript (some a) indent))
    | none =>
    match allOf with
    | some [] => "unknown"
    | some (a :: _) => jsonSchemaToTypeScript (some a) indent
    | none =>
    match ty with
    | some "string" =>
      (match enumVals with
       | some vs => jsJoin " | " (vs.map (fun v => "\"" ++ v ++ "\""))
       | none => "string")
    | some "number" => "number"
    | some "integer" => "number"
    | some "boolean" => "boolean"
    | some "null" => "null"
    | some "array" =>
      (match items with
       | some it => jsonSchemaToTypeScript (some it) indent
       | none => "unknown") ++ "[]"
    | some "object" =>
      (match properties with
       | none =>
         (match addProps with
          | .abool false => "\x7b\x7d"
          | _ => "Record<string, unknown>")
       | some props =>
         let propsStr := jsJoin "\n" (props.attach.map (fun ⟨kv, _⟩ =>
           let optionalMark :=
             if (match required with | some r => r.contains kv.1 | none => false)
             then "" else "?"
           let comment :=
             match kv.2.descr with
             | some d =>
               spaces ++ "  /**\n" ++ spaces ++ "   * " ++
                 replaceCharStr d '\n' ("\n" ++ spaces ++ "   * ") ++
                 "\n" ++ spaces ++ "   */\n"
             | none => ""
           let propType := jsonSchemaToTypeScript (some kv.2) (indent + 2)
           comment ++ spaces ++ "  " ++ kv.1 ++ optionalMark ++ ": " ++ propType ++ ";"))
         let additionalProps :=
           match addProps with
           | .aval s2 =>
             "\n" ++ spaces ++ "  [key: string]: " ++
               jsonSchemaToTypeScript (some s2) (indent + 2) ++ ";"
           | .abool true => "\n" ++ spaces ++ "  [key: string]: unknown;"
           | _ => ""
         "\x7b\n" ++ propsStr ++ additionalProps ++ "\n" ++ spaces ++ "\x7d")
    | _ => "unknown"
  termination_by o _ => sizeOf o
  decreasing_by
    all_goals simp_wf
    all_goals try omega
    all_goals rename_i hmem
    all_goals try (have hlt := List.sizeOf_lt_of_mem hmem; omega)
    all_goals obtain ⟨k, v⟩ := kv
    all_goals have hlt := List.sizeOf_lt_of_mem hmem
    all_goals simp at hlt ⊢
    all_goals omega

/-- `schema.required?.includes(key) ?? false`. -/
def isRequiredKey (required : Option (List String)) (key : String) : Bool :=
  match required with | some r => r.contains key | none => false

/-- The JSDoc comment attached to one object property, from its
`description` (empty when there is none). -/
def propComment (indent : Nat) (psch : Schema) : String :=
  let spaces := spacesOf indent
  match psch.descr with
  | some d =>
    spaces ++ "  /**\n" ++ spaces ++ "   * " ++
      replaceCharStr d '\n' ("\n" ++ spaces ++ "   * ") ++
      "\n" ++ spaces ++ "   */\n"
  | none => ""

/-- The rendering of one object property, factored from the
`Object.entries(schema.properties).map` body of `jsonSchemaToTypeScript`:
JSDoc comment from the property's description, the key, the optional
marker `?` exactly when the key is not listed in `required`, and the
translated property type at `indent + 2`. -/
def renderProp (indent : Nat) (required : Option (List String)) (kv : String × Schema) : String :=
  let spaces := spacesOf indent
  let optionalMark := if isRequiredKey required kv.1 then "" else "?"
  let comment := propComment indent kv.2
  let propType := jsonSchemaToTypeScript (some kv.2) (indent + 2)
  comment ++ spaces ++ "  " ++ kv.1 ++ optionalMark ++ ": " ++ propType ++ ";"

/-- The object-with-properties branch of the translator (with
`additionalProperties` absent), expressed through `renderProp`. -/
theorem jsonSchemaToTypeScript_object (indent : Nat) (enumVals : Option (List String))
    (items : Option Schema) (props : List (String × Schema))
    (required : Option (List String)) (descr : Option String) :
    jsonSchemaToTypeScript
      (some (.mk none none none (some "object") enumVals items (some props) required
        .absent descr)) indent =
    "\x7b\n" ++ jsJoin "\n" (props.map (renderProp indent required)) ++ "\n" ++
      spacesOf indent ++ "\x7d" := by
  rw [show props.map (renderProp indent required)
        = props.attach.map (fun i => renderProp indent required i.val) from
      (List.attach_map_val props (renderProp indent required)).symm]
  simp only [jsonSchemaToTypeScript, String.append_empty]
  congr 2

example :
    jsonSchemaToTypeScript
      (some (.mk none none none (some "string") (some ["a", "b"]) none none none .absent none)) 0 =
    "\"a\" | \"b\"" := by
  simp [jsonSchemaToTypeScript, jsJoin]

example :
    jsonSchemaToTypeScript
      (some (.mk none none none (some "frobnicate") none none none none .absent none)) 7 =
    "unknown" := by
  simp [jsonSchemaToTypeScript]

example :
    jsonSchemaToTypeScript
      (some (.mk none none none (some "object")  none none
        (some [("a", .mk none none none (some "string") none none none none .absent none)])
        (some ["a"]) .absent none)) 0 =
    "\x7b\n  a: string;\n\x7d" := by
  simp [jsonSchemaToTypeScript, jsJoin, spacesOf, Schema.descr]

/-- One MCP tool descriptor as consumed by `generateTypeScriptDefinitions`
(name, optional input schema, optional description). -/
structure Tool where
  name : String
  inputSchema : Option Schema
  descr : Option String

/-- `generateTypeScriptDefinitions` from src/schema-to-types.js: per tool,
an input interface (from the tool's input schema, defaulting to an empty
object schema), a generic output interface, and a typed async method on
the `mcp` namespace; assembled into one text document. -/
def generateTypeScriptDefinitions (tools : List Tool) : String :=
  let interfaces := (tools.map (fun tool =>
    let pascalName := toPascalCase tool.name
    let inputSchema := tool.inputSchema.getD
      (.mk none none none (some "object") none none (some []) none .absent none)
    ["interface " ++ pascalName ++ "Input " ++ jsonSchemaToTypeScript (some inputSchema) 0,
     "interface " ++ pascalName ++ "Output \x7b\n  [key: string]: any;\n\x7d"])).flatten
  let toolMethods := tools.map (fun tool =>
    let descComment :=
      match tool.descr with
      | some d => "  /**\n   * " ++ replaceCharStr d '\n' "\n   * " ++ "\n   */\n"
      | none => ""
    descComment ++ "  " ++ sanitizeName tool.name ++ ": (\n    input: " ++
      toPascalCase tool.name ++ "Input\n  ) => Promise<" ++
      toPascalCase tool.name ++ "Output>;")
  "// TypeScript definitions for MCP tools\n" ++ jsJoin "\n\n" interfaces ++
    "\n\ndeclare const mcp: \x7b\n" ++ jsJoin "\n\n" toolMethods ++ "\n\x7d;"

/-- C4: interface generation is a deterministic pure function of the tool
descriptor sequence — equal sequences give byte-identical text. In this
embedding the generator is a Lean function, stateless and I/O-free like
the source, so determinism is exactly congruence. -/
theorem C4_generation_deterministic (ts1 ts2 : List Tool) (h : ts1 = ts2) :
    generateTypeScriptDefinitions ts1 = generateTypeScriptDefinitions ts2 := by
  rw [h]

/-- Witness for C4 on a concrete descriptor sequence. -/
theorem C4_generation_deterministic_witness :
    [Tool.mk "search-music" none none] = [Tool.mk "search-music" none none] ∧
    generateTypeScriptDefinitions [Tool.mk "search-music" none none] =
      generateTypeScriptDefinitions [Tool.mk "search-music" none none] :=
  ⟨rfl, C4_generation_deterministic _ _ rfl⟩

/-- C5: a string property with `enum: ["a","b"]` translates to the literal
union `"a" | "b"`; within an object translation each property is rendered
by `renderProp`, which omits the optional marker `?` exactly when the key
is listed in the schema's `required` array. -/
theorem C5_enum_and_required (i : Nat) (req : Option (List String)) (key : String)
    (psch : Schema) (items : Option Schema) (props0 : Option (List (String × Schema)))
    (r0 : Option (List String)) (ap0 : APVal Schema) (d0 : Option String) :
    (jsonSchemaToTypeScript
        (some (.mk none none none (some "string") (some ["a", "b"]) items props0 r0 ap0 d0)) i
      = "\"a\" | \"b\"") ∧
    (isRequiredKey req key = true →
      renderProp i req (key, psch) =
        propComment i psch ++ spacesOf i ++ "  " ++ key ++ ": " ++
          jsonSchemaToTypeScript (some psch) (i + 2) ++ ";") ∧
    (isRequiredKey req key = false →
      renderProp i req (key, psch) =
        propComment i psch ++ spacesOf i ++ "  " ++ key ++ "?" ++ ": " ++
          jsonSchemaToTypeScript (some psch) (i + 2) ++ ";") ∧
    (isRequiredKey req key = true ↔ ∃ rl, req = some rl ∧ key ∈ rl) ∧
    (∀ (propsL : List (String × Schema)),
      jsonSchemaToTypeScript
          (some (.mk none none none (some "object") none none (some propsL) req .absent none)) i
        = "\x7b\n" ++ jsJoin "\n" (propsL.map (renderProp i req)) ++ "\n" ++
            spacesOf i ++ "\x7d") := by
  refine ⟨by simp [jsonSchemaToTypeScript, jsJoin], ?_, ?_, ?_, ?_⟩
  · intro h
    simp [renderProp, h]
  · intro h
    simp [renderProp, h]
  · cases req with
    | none => simp [isRequiredKey]
    | some rl => simp [isRequiredKey, List.contains]
  · intro propsL
    exact jsonSchemaToTypeScript_object i none none propsL req none

/-- Witness for C5: a required key `"k"` renders without `?`, a key `"x"`
absent from `required` renders with it. -/
theorem C5_enum_and_required_witness :
    isRequiredKey (some ["k"]) "k" = true ∧
    isRequiredKey (some ["k"]) "x" = false ∧
    (renderProp 0 (some ["k"])
        ("k", .mk none none none (some "string") none none none none .absent none) =
      propComment 0 (.mk none none none (some "string") none none none none .absent none) ++
        spacesOf 0 ++ "  " ++ "k" ++ ": " ++
        jsonSchemaToTypeScript
          (some (.mk none none none (some "string") none none none none .absent none)) 2 ++
        ";") ∧
    (renderProp 0 (some ["k"])
        ("x", .mk none none none (some "string") none none none none .absent none) =
      propComment 0 (.mk none none none (some "string") none none none none .absent none) ++
        spacesOf 0 ++ "  " ++ "x" ++ "?" ++ ": " ++
        jsonSchemaToTypeScript
          (some (.mk none none none (some "string") none none none none .absent none)) 2 ++
        ";") :=
  ⟨by decide, by decide,
    (C5_enum_and_required 0 (some ["k"]) "k"
        (.mk none none none (some "string") none none none none .absent none)
        none none none .absent none).2.1 (by decide),
    (C5_enum_and_required 0 (some ["k"]) "x"
        (.mk none none none (some "string") none none none none .absent none)
        none none none .absent none).2.2.1 (by decide)⟩

/-- C7: schema translation is total (a Lean function by construction, so
it never raises) and degrades missing or unrecognized shapes to
`"unknown"`: a missing schema, a schema with no type tag, and a schema
whose type tag is outside the recognized set all translate to the top
type. -/
theorem C7_translation_total_unknown :
    (∀ i, jsonSchemaToTypeScript none i = "unknown") ∧
    (∀ i enumVals items properties required addProps descr,
      jsonSchemaToTypeScript
          (some (.mk none none none none enumVals items properties required addProps descr)) i
        = "unknown") ∧
    (∀ i t enumVals items properties required addProps descr,
      t ∉ (["string", "number", "integer", "boolean", "null", "array", "object"] : List String) →
      jsonSchemaToTypeScript
          (some (.mk none none none (some t) enumVals items properties required addProps descr)) i
        = "unknown") := by
  refine ⟨fun i => by simp [jsonSchemaToTypeScript],
    fun i e it p r ap d => by simp [jsonSchemaToTypeScript], ?_⟩
  intro i t e it p r ap d h
  exact jsonSchemaToTypeScript.eq_19 i (some t) e it p r ap d (by simp_all) (by simp_all)
    (by simp_all) (by simp_all) (by simp_all) (by simp_all) (by simp_all)

/-- Witness for C7 at the unrecognized type tag `"frobnicate"`. -/
theorem C7_translation_total_unknown_witness :
    "frobnicate" ∉
      (["string", "number", "integer", "boolean", "null", "array", "object"] : List String) ∧
    jsonSchemaToTypeScript
        (some (.mk none none none (some "frobnicate") none none none none .absent none)) 3
      = "unknown" :=
  ⟨by decide,
    C7_translation_total_unknown.2.2 3 "frobnicate" none none none none .absent none (by decide)⟩

/-! ## MCP-usage validation (src/validator.js) and the execution pipeline
(index.js `MCPCodeMode.executeCode`) -/

/-- One step of JavaScript `Set` insertion: keep first occurrences, in
insertion order (`usedTools.add(match[1])`). -/
def addUnique (seen : List String) (x : String) : List String :=
  if seen.contains x then seen else seen ++ [x]

/-- The `while ((match = toolPattern.exec(code)) !== null)` loop of
`validateMCPUsage`: scan left to right for successive non-overlapping
matches of `mcp\.(\w+)\(` and collect the captured identifiers in match
order. A match needs the literal `mcp.`, then a nonempty maximal run of
word characters, then `(`; on failure the scan advances one character. -/
def scanMCPAux : Nat → List Char → List String
  | 0, _ => []
  | _ + 1, [] => []
  | fuel + 1, 'm' :: 'c' :: 'p' :: '.' :: rest =>
    (match rest.takeWhile isWordChar, rest.dropWhile isWordChar with
     | c0 :: ws, '(' :: rest2 => String.mk (c0 :: ws) :: scanMCPAux fuel rest2
     | _, _ => scanMCPAux fuel ('c' :: 'p' :: '.' :: rest))
  | fuel + 1, _ :: cs => scanMCPAux fuel cs

/-- Entry point of the scanner: every loop step consumes at least one
character of the remaining input, so `l.length` steps always complete
the scan; the count is threaded structurally to keep the scanner
computable. -/
def scanMCP (l : List Char) : List String := scanMCPAux l.length l

/-- The set of identifiers used in `mcp.<identifier>(` calls, in
first-occurrence order (`Array.from(usedTools)` on the JS `Set`). -/
def usedToolsOf (code : String) : List String :=
  (scanMCP code.data).foldl addUnique []

/-- `invalidTools`: the used identifiers missing from `availableTools`. -/
def invalidToolsOf (code : String) (availableTools : List String) : List String :=
  (usedToolsOf code).filter (fun t => !(availableTools.contains t))

/-- Result shape of `validateMCPUsage` (`error` absent on success). -/
structure MCPUsageResult where
  success : Bool
  error : Option String

/-- `Validator.validateMCPUsage` from src/validator.js. -/
def validateMCPUsage (code : String) (availableTools : List String) : MCPUsageResult :=
  let invalidTools := invalidToolsOf code availableTools
  if invalidTools.length > 0 then
    { success := false,
      error := some ("Code uses undefined MCP tools: " ++ jsJoin ", " invalidTools) }
  else { success := true, error := none }

example : scanMCP "await mcp.searchTracks(\x7bq: 1\x7d); mcp.play(x)".data =
    ["searchTracks", "play"] := by decide
example : scanMCP "mcp.mcp.foo(".data = ["foo"] := by decide
example : (validateMCPUsage "mcp.badTool(x)" ["goodTool"]).error =
    some "Code uses undefined MCP tools: badTool" := by decide

theorem mem_addUnique (acc : List String) (a x : String) :
    x ∈ addUnique acc a ↔ x ∈ acc ∨ x = a := by
  unfold addUnique
  split
  · rename_i hc
    have ha : a ∈ acc := by simpa using hc
    constructor
    · exact Or.inl
    · rintro (h | rfl)
      · exact h
      · exact ha
  · simp

theorem mem_foldl_addUnique (l : List String) (acc : List String) (x : String) :
    x ∈ l.foldl addUnique acc ↔ x ∈ acc ∨ x ∈ l := by
  induction l generalizing acc with
  | nil => simp
  | cons a as ih =>
    rw [List.foldl_cons, ih, mem_addUnique]
    simp only [List.mem_cons]
    tauto

/-- Outcome of `Validator.validate` (the TypeScript type check): on
success the compiled user code and optional source map; on failure the
formatted diagnostics. The type checker itself is the external
`typescript` package, so it enters the embedding as an opaque outcome. -/
inductive TSValidation where
  | ok (output : String) (sourceMap : Option String)
  | failed (formattedErrors : String)

/-- Result shape returned by `MCPCodeMode.executeCode`. -/
structure PipelineResult where
  success : Bool
  error : Option String
  validationErrors : Option String
  output : List String

/-- `MCPCodeMode.executeCode` from index.js, up to the sandbox call: the
returned pair is the result together with whether `sandbox.execute` was
invoked. When validation is enabled and not skipped, a failed type check
returns immediately; otherwise the MCP-usage check runs on the compiled
code and a failure returns immediately; only then does the sandbox run
(on the compiled code, or on the raw code when validation is off). -/
def executeCodePipeline (validateTypes skipValidation : Bool)
    (tsResult : TSValidation) (availableTools : List String)
    (sandboxExec : String → PipelineResult) (code : String) : PipelineResult × Bool :=
  if validateTypes && !skipValidation then
    match tsResult with
    | .failed fe =>
      ({ success := false, error := some "TypeScript validation failed",
         validationErrors := some fe, output := [] }, false)
    | .ok out _ =>
      let mcpValidation := validateMCPUsage out availableTools
      if mcpValidation.success then (sandboxExec out, true)
      else ({ success := false, error := mcpValidation.error,
              validationErrors := none, output := [] }, false)
  else (sandboxExec code, true)

theorem invalid_ne_nil_iff (code : String) (tools : List String) :
    invalidToolsOf code tools ≠ [] ↔ ∃ t, t ∈ scanMCP code.data ∧ t ∉ tools := by
  unfold invalidToolsOf usedToolsOf
  rw [Ne, List.filter_eq_nil_iff]
  push_neg
  constructor
  · rintro ⟨t, ht, hp⟩
    refine ⟨t, ?_, by simpa using hp⟩
    have := (mem_foldl_addUnique _ _ _).1 ht
    simpa using this
  · rintro ⟨t, ht, hp⟩
    exact ⟨t, (mem_foldl_addUnique _ _ _).2 (Or.inr ht), by simpa using hp⟩

/-- C2: the MCP-usage check fails exactly when some identifier collected
from a `mcp.<identifier>(` call in the compiled code is not among the
known tools, and then its error names the offending identifiers; and in
the execution pipeline with validation enabled, a failed type check or a
failed usage check yields `success = false` with the sandbox never
invoked. -/
theorem C2_validation_gate :
    (∀ code tools, (validateMCPUsage code tools).success = false ↔
        ∃ t, t ∈ scanMCP code.data ∧ t ∉ tools) ∧
    (∀ code tools, (validateMCPUsage code tools).success = false →
        (validateMCPUsage code tools).error =
          some ("Code uses undefined MCP tools: " ++
            jsJoin ", " (invalidToolsOf code tools))) ∧
    (∀ fe tools sandboxExec code,
        (executeCodePipeline true false (.failed fe) tools sandboxExec code).1.success = false ∧
        (executeCodePipeline true false (.failed fe) tools sandboxExec code).2 = false) ∧
    (∀ out sm tools sandboxExec code,
        (validateMCPUsage out tools).success = false →
        (executeCodePipeline true false (.ok out sm) tools sandboxExec code).1.success = false ∧
        (executeCodePipeline true false (.ok out sm) tools sandboxExec code).2 = false ∧
        (executeCodePipeline true false (.ok out sm) tools sandboxExec code).1.error =
          (validateMCPUsage out tools).error) := by
  refine ⟨?_, ?_, ?_, ?_⟩
  · intro code tools
    constructor
    · intro h
      rw [← invalid_ne_nil_iff]
      intro hnil
      simp only [validateMCPUsage] at h
      rw [hnil] at h
      simp at h
    · intro hex
      have hne := (invalid_ne_nil_iff code tools).2 hex
      have hlen : 0 < (invalidToolsOf code tools).length := List.length_pos.2 hne
      simp only [validateMCPUsage]
      rw [if_pos hlen]
  · intro code tools h
    simp only [validateMCPUsage] at h ⊢
    split at h
    · rename_i hl
      rw [if_pos hl]
    · simp at h
  · intro fe tools sandboxExec code
    exact ⟨rfl, rfl⟩
  · intro out sm tools sandboxExec code h
    refine ⟨?_, ?_, ?_⟩ <;> simp [executeCodePipeline, h]

/-- Witness for C2 on the concrete submission `mcp.badTool(x)` against
the tool set `["goodTool"]`. -/
theorem C2_validation_gate_witness :
    (validateMCPUsage "mcp.badTool(x)" ["goodTool"]).success = false ∧
    (validateMCPUsage "mcp.badTool(x)" ["goodTool"]).error =
      some ("Code uses undefined MCP tools: " ++
        jsJoin ", " (invalidToolsOf "mcp.badTool(x)" ["goodTool"])) ∧
    ((executeCodePipeline true false (.ok "mcp.badTool(x)" none) ["goodTool"]
        (fun _ => ⟨true, none, none, []⟩) "orig").1.success = false ∧
      (executeCodePipeline true false (.ok "mcp.badTool(x)" none) ["goodTool"]
        (fun _ => ⟨true, none, none, []⟩) "orig").2 = false ∧
      (executeCodePipeline true false (.ok "mcp.badTool(x)" none) ["goodTool"]
        (fun _ => ⟨true, none, none, []⟩) "orig").1.error =
        (validateMCPUsage "mcp.badTool(x)" ["goodTool"]).error) :=
  ⟨by decide,
    C2_validation_gate.2.1 "mcp.badTool(x)" ["goodTool"] (by decide),
    C2_validation_gate.2.2.2 "mcp.badTool(x)" none ["goodTool"]
      (fun _ => ⟨true, none, none, []⟩) "orig" (by decide)⟩

/-! ## Isolated-vm sandbox (isolated-sandbox.js `IsolatedSandbox`) -/

/-- Mutable fields of an `IsolatedSandbox`: the configured ceilings, the
optional isolate/context references (modeled as ids; `none` is JS
`null`), the captured log lines, and a fresh-id counter standing for
allocation of new isolates/contexts. -/
structure SandboxState where
  memoryLimit : Nat
  timeout : Nat
  isolate : Option Nat
  context : Option Nat
  logs : List String
  nextId : Nat

/-- `IsolatedSandbox.initialize`: allocate a fresh isolate and context
(one fresh id models both) and reset the log buffer. -/
def initSandbox (s : SandboxState) : SandboxState :=
  { s with isolate := some s.nextId, context := some s.nextId,
           logs := [], nextId := s.nextId + 1 }

/-- Result shape of `IsolatedSandbox.execute`. -/
structure SandboxResult where
  success : Bool
  error : Option String
  output : List String

/-- One call to `IsolatedSandbox.execute`, with the evaluation itself
abstracted into its observable outcome: the log lines the evaluated code
pushed and `none` (normal completion) or `some msg` (the isolation
layer's raised error message). -/
structure ExecStep where
  result : SandboxResult
  state : SandboxState
  ranWithContext : Option Nat
  didInit : Bool

/-- `IsolatedSandbox.execute` from isolated-sandbox.js: lazily
(re)initialize when isolate or context is missing, run the code, then
classify a raised error in order: timeout marker, isolate-disposed
marker (memory limit: report the configured ceiling and null out isolate
and context), anything else verbatim. `ranWithContext` records the
context the evaluation ran in and `didInit` whether this call
initialized a fresh one. -/
def executeSandbox (s : SandboxState) (producedLogs : List String)
    (outcome : Option String) : ExecStep :=
  let s0 := if s.isolate = none ∨ s.context = none then initSandbox s else s
  let didInit := decide (s.isolate = none ∨ s.context = none)
  let s1 := { s0 with logs := producedLogs }
  match outcome with
  | none => ⟨⟨true, none, s1.logs⟩, s1, s1.context, didInit⟩
  | some msg =>
    if strIncludes msg "Script execution timed out" then
      ⟨⟨false, some ("Execution timeout (" ++ toString s1.timeout ++ "ms exceeded)"), s1.logs⟩,
        s1, s1.context, didInit⟩
    else if strIncludes msg "Isolate was disposed" then
      ⟨⟨false, some ("Memory limit exceeded (" ++ toString s1.memoryLimit ++ "MB)"), s1.logs⟩,
        { s1 with isolate := none, context := none }, s1.context, didInit⟩
    else ⟨⟨false, some msg, s1.logs⟩, s1, s1.context, didInit⟩

/-- C3: when the isolation layer kills the context for exceeding the
memory ceiling (an `Isolate was disposed` error that is not a timeout),
`execute` reports failure with a memory-limit error naming the
configured ceiling, nulls out both the isolate and the context, and the
next call to `execute` initializes and runs in a fresh context — fresh
in that its id is the new allocation, distinct from the dead context's
id. -/
theorem C3_memory_limit_teardown_reinit (s : SandboxState) (lg : List String) (msg : String)
    (hm : strIncludes msg "Isolate was disposed" = true)
    (ht : strIncludes msg "Script execution timed out" = false) :
    (executeSandbox s lg (some msg)).result.success = false ∧
    (executeSandbox s lg (some msg)).result.error =
      some ("Memory limit exceeded (" ++ toString s.memoryLimit ++ "MB)") ∧
    (executeSandbox s lg (some msg)).state.isolate = none ∧
    (executeSandbox s lg (some msg)).state.context = none ∧
    (∀ lg2 out2,
      (executeSandbox (executeSandbox s lg (some msg)).state lg2 out2).didInit = true ∧
      (executeSandbox (executeSandbox s lg (some msg)).state lg2 out2).ranWithContext =
        some (executeSandbox s lg (some msg)).state.nextId ∧
      ∀ cid, s.context = some cid → cid < s.nextId →
        (executeSandbox (executeSandbox s lg (some msg)).state lg2 out2).ranWithContext ≠
          some cid) := by
  have hstep :
      (executeSandbox s lg (some msg)).state.isolate = none ∧
      (executeSandbox s lg (some msg)).state.context = none ∧
      s.nextId ≤ (executeSandbox s lg (some msg)).state.nextId ∧
      (executeSandbox s lg (some msg)).result.success = false ∧
      (executeSandbox s lg (some msg)).result.error =
        some ("Memory limit exceeded (" ++ toString s.memoryLimit ++ "MB)") := by
    by_cases hinit : s.isolate = none ∨ s.context = none <;>
      simp [executeSandbox, initSandbox, hinit, hm, ht]
  have key : ∀ (t : SandboxState), t.isolate = none →
      ∀ lg2 out2, (executeSandbox t lg2 out2).didInit = true ∧
        (executeSandbox t lg2 out2).ranWithContext = some t.nextId := by
    intro t ht0 lg2 out2
    cases out2 with
    | none => simp [executeSandbox, initSandbox, ht0]
    | some m2 =>
      constructor
      · simp only [executeSandbox]
        split
        · simp [ht0]
        · split
          · simp [ht0]
          · simp [ht0]
      · simp only [executeSandbox]
        split
        · simp [initSandbox, ht0]
        · split
          · simp [initSandbox, ht0]
          · simp [initSandbox, ht0]
  refine ⟨hstep.2.2.2.1, hstep.2.2.2.2, hstep.1, hstep.2.1, ?_⟩
  intro lg2 out2
  have hrun := key (executeSandbox s lg (some msg)).state hstep.1 lg2 out2
  refine ⟨hrun.1, hrun.2, ?_⟩
  intro cid hcid hlt heq
  rw [hrun.2] at heq
  have hnid : (executeSandbox s lg (some msg)).state.nextId = cid := by
    simpa using heq
  have hle := hstep.2.2.1
  omega

/-- Witness for C3 at a concrete sandbox state and disposal message. -/
theorem C3_memory_limit_teardown_reinit_witness :
    strIncludes "Isolate was disposed" "Isolate was disposed" = true ∧
    strIncludes "Isolate was disposed" "Script execution timed out" = false ∧
    (executeSandbox ⟨128, 5000, some 0, some 0, [], 1⟩ ["line"]
        (some "Isolate was disposed")).result.success = false ∧
    (executeSandbox ⟨128, 5000, some 0, some 0, [], 1⟩ ["line"]
        (some "Isolate was disposed")).result.error =
      some ("Memory limit exceeded (" ++ toString (128 : Nat) ++ "MB)") ∧
    (executeSandbox ⟨128, 5000, some 0, some 0, [], 1⟩ ["line"]
        (some "Isolate was disposed")).state.context = none := by
  have h := C3_memory_limit_teardown_reinit ⟨128, 5000, some 0, some 0, [], 1⟩ ["line"]
    "Isolate was disposed" (by decide) (by decide)
  exact ⟨by decide, by decide, h.1, h.2.1, h.2.2.2.1⟩

/-! ## Console capture inside the isolated context
(isolated-sandbox.js `_logSync` and the bootstrapped console object) -/

/-- A JavaScript value as seen by `_logSync`'s formatter: `null`,
`undefined`, an object (with its `JSON.stringify` result, or `none` when
stringification throws), or any other value via its `String(...)` form.
The `arg === null` check precedes the `typeof`-object check, which is
why `null` never reaches the object case. -/
inductive JSVal where
  | vnull
  | vundefined
  | vobj (stringified : Option String)
  | vother (str : String)

/-- Per-argument formatting inside `_logSync`. -/
def formatArg : JSVal → String
  | .vnull => "null"
  | .vundefined => "undefined"
  | .vobj (some s) => s
  | .vobj none => "[Object]"
  | .vother s => s

/-- `_logSync`: format every argument, join with single spaces, push one
line onto the log buffer. -/
def logSync (logs : List String) (args : List JSVal) : List String :=
  logs ++ [jsJoin " " (args.map formatArg)]

/-- `console.log` as bootstrapped inside the context. -/
def consoleLog (logs : List String) (args : List JSVal) : List String :=
  logSync logs args

/-- `console.error`: `_logSync('ERROR:', ...args)`. -/
def consoleError (logs : List String) (args : List JSVal) : List String :=
  logSync logs (.vother "ERROR:" :: args)

/-- `console.warn`: `_logSync('WARN:', ...args)`. -/
def consoleWarn (logs : List String) (args : List JSVal) : List String :=
  logSync logs (.vother "WARN:" :: args)

/-- C8: every captured console call appends exactly one line, formatted
per argument (`null`/`undefined` literals, serialized objects with the
`[Object]` fallback, string form otherwise) and joined by single spaces;
error/warn lines carry the `ERROR:`/`WARN:` prefix (alone when there are
no further arguments, otherwise followed by a space and the formatted
arguments). -/
theorem C8_console_formatting (logs : List String) (args : List JSVal) (s : String) :
    consoleLog logs args = logs ++ [jsJoin " " (args.map formatArg)] ∧
    (consoleLog logs args).length = logs.length + 1 ∧
    (consoleError logs args).length = logs.length + 1 ∧
    (consoleWarn logs args).length = logs.length + 1 ∧
    formatArg .vnull = "null" ∧
    formatArg .vundefined = "undefined" ∧
    formatArg (.vobj none) = "[Object]" ∧
    formatArg (.vobj (some s)) = s ∧
    formatArg (.vother s) = s ∧
    (∃ t, consoleError logs args = logs ++ ["ERROR:" ++ t] ∧
      (args = [] → t = "") ∧
      (args ≠ [] → t = " " ++ jsJoin " " (args.map formatArg))) ∧
    (∃ t, consoleWarn logs args = logs ++ ["WARN:" ++ t] ∧
      (args = [] → t = "") ∧
      (args ≠ [] → t = " " ++ jsJoin " " (args.map formatArg))) := by
  refine ⟨rfl, by simp [consoleLog, logSync], by simp [consoleError, logSync],
    by simp [consoleWarn, logSync], rfl, rfl, rfl, rfl, rfl, ?_, ?_⟩
  · cases args with
    | nil => exact ⟨"", by simp [consoleError, logSync, jsJoin, formatArg], by simp, by simp⟩
    | cons a as =>
      refine ⟨" " ++ jsJoin " " ((a :: as).map formatArg), ?_, by simp, fun _ => rfl⟩
      simp only [consoleError, logSync, List.map_cons, jsJoin, formatArg,
        String.append_assoc]
  · cases args with
    | nil => exact ⟨"", by simp [consoleWarn, logSync, jsJoin, formatArg], by simp, by simp⟩
    | cons a as =>
      refine ⟨" " ++ jsJoin " " ((a :: as).map formatArg), ?_, by simp, fun _ => rfl⟩
      simp only [consoleWarn, logSync, List.map_cons, jsJoin, formatArg,
        String.append_assoc]

/-- Witness for C8 at a concrete log call. -/
theorem C8_console_formatting_witness :
    consoleLog ["old"] [.vnull, .vundefined, .vobj none, .vother "x"] =
      ["old"] ++
        [jsJoin " " (([JSVal.vnull, .vundefined, .vobj none, .vother "x"]).map formatArg)] :=
  (C8_console_formatting ["old"] [.vnull, .vundefined, .vobj none, .vother "x"] "x").1

/-! ## Error mapper (error-mapper.js `ErrorMapper.isRecoverable`) -/

/-- A raised JavaScript error as seen by the error mapper: constructor
name and message. -/
structure JSError where
  name : String
  message : String

/-- `ErrorMapper.isRecoverable`: syntax errors first (never recoverable),
then messages mentioning memory or timeout (recoverable), then type and
reference errors (recoverable), default not recoverable. -/
def isRecoverable (e : JSError) : Bool :=
  if e.name == "SyntaxError" then false
  else if strIncludes e.message "memory" || strIncludes e.message "timeout" then true
  else if e.name == "TypeError" || e.name == "ReferenceError" then true
  else false

/-- C9: the recoverability classification, in the order the code checks
it: every syntax-class error is unrecoverable; otherwise a message
indicating a timeout or memory condition is recoverable; otherwise
type-class and reference-class errors are recoverable; everything else
is not. -/
theorem C9_recoverability (e : JSError) :
    (e.name = "SyntaxError" → isRecoverable e = false) ∧
    (e.name ≠ "SyntaxError" →
      (strIncludes e.message "timeout" = true ∨ strIncludes e.message "memory" = true) →
      isRecoverable e = true) ∧
    (e.name ≠ "SyntaxError" →
      strIncludes e.message "timeout" = false → strIncludes e.message "memory" = false →
      (e.name = "TypeError" ∨ e.name = "ReferenceError") → isRecoverable e = true) ∧
    (e.name ≠ "SyntaxError" →
      strIncludes e.message "timeout" = false → strIncludes e.message "memory" = false →
      e.name ≠ "TypeError" → e.name ≠ "ReferenceError" → isRecoverable e = false) := by
  refine ⟨?_, ?_, ?_, ?_⟩
  · intro h
    simp [isRecoverable, h]
  · intro h hm
    rcases hm with hm | hm <;> simp [isRecoverable, h, hm]
  · intro h ht hm hn
    rcases hn with hn | hn <;> simp [isRecoverable, h, ht, hm, hn]
  · intro h ht hm h1 h2
    simp [isRecoverable, h, ht, hm, h1, h2]

/-- Witness for C9: one error per classification branch. -/
theorem C9_recoverability_witness :
    isRecoverable ⟨"SyntaxError", "Unexpected token"⟩ = false ∧
    isRecoverable ⟨"RangeError", "array buffer allocation: out of memory"⟩ = true ∧
    isRecoverable ⟨"TypeError", "x is not a function"⟩ = true ∧
    isRecoverable ⟨"RangeError", "Maximum call stack size exceeded"⟩ = false :=
  ⟨(C9_recoverability ⟨"SyntaxError", "Unexpected token"⟩).1 rfl,
    (C9_recoverability ⟨"RangeError", "array buffer allocation: out of memory"⟩).2.1
      (by decide) (Or.inr (by decide)),
    (C9_recoverability ⟨"TypeError", "x is not a function"⟩).2.2.1
      (by decide) (by decide) (by decide) (Or.inl rfl),
    (C9_recoverability ⟨"RangeError", "Maximum call stack size exceeded"⟩).2.2.2
      (by decide) (by decide) (by decide) (by decide) (by decide)⟩

/-! ## Worker-thread sandbox (src/sandbox.js `CodeSandbox`) -/

/-- A raised error inside the worker, as consumed by
`'Error: ' + (error.stack || error.message || error)`: a missing stack
or message behaves like the empty string (both are falsy to `||`), and
the last fallback is the error's string coercion. -/
structure WorkerError where
  stack : String
  message : String
  asString : String

/-- JavaScript `a || b` on strings: the empty string is falsy. -/
def jsOrStr (a b : String) : String := if a = "" then b else a

/-- The worker wrapper's catch branch and completion: on an uncaught
error push one final `Error: `-prefixed line, then post `complete` with
the collected logs. -/
def workerFinalLogs (logs : List String) (err : Option WorkerError) : List String :=
  match err with
  | none => logs
  | some e => logs ++ ["Error: " ++ jsOrStr e.stack (jsOrStr e.message e.asString)]

/-- Result shape of `CodeSandbox.execute`. -/
structure WorkerResult where
  success : Bool
  output : List String
  error : Option String

/-- The host's `complete` handler: resolve with `success: true` and the
worker's logs; no `error` field is set on this path. -/
def completeResult (logs : List String) : WorkerResult :=
  ⟨true, logs, none⟩

/-- `CodeSandbox.execute` on the path where the submitted code finishes
or raises without crashing the worker: the wrapper catches, appends the
error line, posts `complete`, and the host resolves that message. -/
def workerExecute (logs : List String) (err : Option WorkerError) : WorkerResult :=
  completeResult (workerFinalLogs logs err)

/-- C10: when submitted code raises an uncaught error that does not
crash the worker, `execute` resolves with `success = true` and no error
field; the failure appears only as one final output line `Error: `
followed by the error's stack, or its message, or its string form (in
that fallback order). -/
theorem C10_worker_error_swallowed (logs : List String) (e : WorkerError) :
    (workerExecute logs (some e)).success = true ∧
    (workerExecute logs (some e)).error = none ∧
    (workerExecute logs (some e)).output =
      logs ++ ["Error: " ++ jsOrStr e.stack (jsOrStr e.message e.asString)] ∧
    (∃ t, (workerExecute logs (some e)).output = logs ++ ["Error: " ++ t] ∧
      (t = e.stack ∨ t = e.message ∨ t = e.asString)) := by
  refine ⟨rfl, rfl, rfl, ⟨jsOrStr e.stack (jsOrStr e.message e.asString), rfl, ?_⟩⟩
  unfold jsOrStr
  split
  · split
    · exact Or.inr (Or.inr rfl)
    · exact Or.inr (Or.inl rfl)
  · exact Or.inl rfl

/-! ## Worker bridge correlation (src/sandbox.js `mcp` proxy protocol) -/

/-- Result or error carried by one `mcp-result` message. -/
inductive BridgeOutcome where
  | ok (result : String)
  | err (message : String)
deriving DecidableEq

/-- One `mcp-result` message posted by the host: it carries the method
name it answers — and nothing else identifying the call. -/
structure ResultMsg where
  method : String
  outcome : BridgeOutcome
deriving DecidableEq

/-- One pending `mcp.<method>(...)` call inside the worker: the promise's
listener filters incoming messages by `msg.method === prop` only, so the
call's identity on the wire is just the method name. `callId` is a
ghost label for stating correlation; `settled` is the call's eventual
settlement. -/
structure PendingCall where
  callId : Nat
  method : String
  settled : Option BridgeOutcome
deriving DecidableEq

/-- Delivery of one `mcp-result` message: the worker's `parentPort`
broadcasts it to every live listener; each still-pending listener whose
method matches settles with the message's payload and unregisters. -/
def deliverResult (pending : List PendingCall) (msg : ResultMsg) : List PendingCall :=
  pending.map (fun p =>
    if p.settled.isNone && (p.method == msg.method)
    then { p with settled := some msg.outcome }
    else p)

/-- Delivery of a sequence of `mcp-result` messages in arrival order. -/
def deliverAll (pending : List PendingCall) (msgs : List ResultMsg) : List PendingCall :=
  msgs.foldl deliverResult pending

/-- C1 counterexample: two concurrent calls to the same tool `play`.
Call 0's own handler invocation produced `ok "A"`, call 1's produced
`ok "B"`, and the handlers completed in the order B, A. Both pending
calls settle with `ok "B"`: call 0 resolves with the result of call 1's
handler invocation, not its own. -/
theorem C1_bridge_counterexample :
    deliverAll [⟨0, "play", none⟩, ⟨1, "play", none⟩]
        [⟨"play", .ok "B"⟩, ⟨"play", .ok "A"⟩] =
      [⟨0, "play", some (.ok "B")⟩, ⟨1, "play", some (.ok "B")⟩] ∧
    BridgeOutcome.ok "B" ≠ BridgeOutcome.ok "A" := by
  exact ⟨by decide, by decide⟩

/-- C1 amended: a response settles only calls bearing its own method
name — every call that becomes settled either carried that settlement
already or was settled by a message whose method equals the call's; in
particular two concurrent calls to distinct tools can never receive each
other's results (while two same-named calls can, as the counterexample
shows). -/
theorem C1_bridge_method_correlation (msgs : List ResultMsg) (pending : List PendingCall)
    (p : PendingCall) (hp : p ∈ deliverAll pending msgs) (_hs : p.settled ≠ none) :
    p ∈ pending ∨ ∃ m, m ∈ msgs ∧ m.method = p.method ∧ p.settled = some m.outcome := by
  induction msgs generalizing pending with
  | nil =>
    exact Or.inl (by simpa [deliverAll] using hp)
  | cons m ms ih =>
    rw [deliverAll, List.foldl_cons] at hp
    rcases ih (deliverResult pending m) hp with h | h
    · rcases List.mem_map.1 h with ⟨q, hq, hfq⟩
      by_cases hb : (q.settled.isNone && (q.method == m.method)) = true
      · rw [if_pos hb] at hfq
        right
        refine ⟨m, List.mem_cons_self m ms, ?_, ?_⟩
        · have : q.method = m.method := by
            have := (Bool.and_eq_true .. ▸ hb).2
            simpa using this
          rw [← hfq]
          exact this.symm
        · rw [← hfq]
      · rw [if_neg hb] at hfq
        exact Or.inl (hfq ▸ hq)
    · rcases h with ⟨m', hm', hmeth, hout⟩
      exact Or.inr ⟨m', List.mem_cons_of_mem m hm', hmeth, hout⟩

/-- Witness for the amended C1 theorem: one pending call to `searchA`
settles with the payload of the `searchA` response. -/
theorem C1_bridge_method_correlation_witness :
    (⟨0, "searchA", some (.ok "r")⟩ : PendingCall) ∈ ([⟨0, "searchA", none⟩] : List PendingCall) ∨
    ∃ m, m ∈ ([⟨"searchA", .ok "r"⟩] : List ResultMsg) ∧
      m.method = "searchA" ∧ (some (BridgeOutcome.ok "r") = some m.outcome) :=
  C1_bridge_method_correlation [⟨"searchA", .ok "r"⟩] [⟨0, "searchA", none⟩]
    ⟨0, "searchA", some (.ok "r")⟩ (by decide) (by decide)

end MCM
